import Mathlib

/-!
Verification development for the Brunnsbo music-class booking system.

The definitions below are a shallow embedding of `server/storage.ts`
(class `DatabaseStorage`) together with the table shapes of the shared
Drizzle schema.  Time instants are modelled as minutes since the Unix
epoch (`Int`); the JavaScript arithmetic `date.getTime() + minutes *
60000` becomes plain integer addition of minutes.  The relational store
is modelled as a record of ordered lists, one per table; a SQL `SELECT
… WHERE p` is `List.filter p`, `LIMIT n` is `List.take n`, an
`INNER JOIN` enumerates all matching right-hand rows for each left-hand
row, and an `INSERT` appends at the end.  Row timestamps
(`createdAt` / `updatedAt`) and the randomly generated UUID primary key
of activity-log rows are omitted: no behaviour under scrutiny reads
them.  Functions that generate a fresh UUID (`randomUUID()`) take the
fresh identifier as an explicit argument instead.
-/

set_option autoImplicit false

namespace Brunnsbo

/-- Row of the `workflow_statuses` table (shared schema). -/
structure WorkflowStatus where
  id : String
  slug : String
  name : String
  displayOrder : Int
  color : String
  isDefault : Bool
  isFinal : Bool
  isActive : Bool
  deriving DecidableEq, Repr

/-- Row of the `event_types` table (shared schema): per-type default
duration and the buffer minutes kept before and after an event.
The `description` and `icon` display columns are omitted (nothing
under scrutiny reads them). -/
structure EventType where
  id : String
  slug : String
  name : String
  defaultDurationMinutes : Int
  bufferBeforeMinutes : Int
  bufferAfterMinutes : Int
  isActive : Bool
  displayOrder : Int
  deriving DecidableEq, Repr

/-- Row of the `event_bookings` table (shared schema): the booking's
event type is carried as its slug string, the status as a foreign key
into `workflow_statuses`.  `startAt` is minutes since the epoch (UTC). -/
structure EventBooking where
  id : String
  eventType : String
  contactName : String
  contactEmail : String
  contactPhone : String
  startAt : Int
  durationMinutes : Int
  additionalNotes : Option String
  statusId : String
  assignedTo : Option String
  deriving DecidableEq, Repr

/-- The `activity_action` enum of the shared schema. -/
inductive ActivityAction where
  | created
  | status_changed
  | assigned
  | updated
  | notes_added
  deriving DecidableEq, Repr

/-- Row of the `activity_logs` table (shared schema).  `userId = none`
models the SQL NULL recorded for system changes. -/
structure ActivityLog where
  bookingId : String
  action : ActivityAction
  details : String
  userId : Option String
  userName : Option String
  deriving DecidableEq, Repr

/-- The relational store backing `DatabaseStorage`: one ordered list
per table. -/
structure Store where
  workflowStatuses : List WorkflowStatus
  eventTypes : List EventType
  eventBookings : List EventBooking
  activityLogs : List ActivityLog
  deriving DecidableEq, Repr

/-- `getWorkflowStatusBySlug`: `SELECT * FROM workflow_statuses WHERE
slug = ?`, destructured as `[status]` (first row or `undefined`). -/
def getWorkflowStatusBySlug (statuses : List WorkflowStatus) (slug : String) :
    Option WorkflowStatus :=
  (statuses.filter (fun st => st.slug == slug)).head?

/-- `INNER JOIN workflow_statuses ON event_bookings.status_id =
workflow_statuses.id`: every booking row paired with every status row
whose id matches its foreign key, bookings outermost (rows whose
status id resolves to no catalog row are dropped, as an inner join
does). -/
def joinStatus (bookings : List EventBooking) (statuses : List WorkflowStatus) :
    List (EventBooking × WorkflowStatus) :=
  bookings.flatMap (fun b =>
    (statuses.filter (fun st => st.id == b.statusId)).map (fun st => (b, st)))

/-- The WHERE clause of the availability query in `isTimeSlotAvailable`:
joined rows whose booking starts no later than the candidate's end
(`lte(eventBookings.startAt, endTime)`), whose status is active, and —
when a status slugged "pending" exists — whose status id differs from
the pending status id. -/
def relevantCandidateRows (s : Store) (startTime durationMinutes : Int) :
    List (EventBooking × WorkflowStatus) :=
  let endTime := startTime + durationMinutes
  let pendingStatus := getWorkflowStatusBySlug s.workflowStatuses "pending"
  let rows := joinStatus s.eventBookings s.workflowStatuses
  match pendingStatus with
  | none =>
      rows.filter (fun r => decide (r.1.startAt ≤ endTime) && r.2.isActive)
  | some p =>
      rows.filter (fun r =>
        decide (r.1.startAt ≤ endTime) && r.2.isActive && !(r.1.statusId == p.id))

/-- The rows the availability query actually returns: the WHERE-filtered
rows capped by `.limit(10)`. -/
def availabilityCandidates (s : Store) (startTime durationMinutes : Int) :
    List (EventBooking × WorkflowStatus) :=
  (relevantCandidateRows s startTime durationMinutes).take 10

/-- `isTimeSlotAvailable(startTime, durationMinutes)`: scans the capped
candidate rows and reports a conflict when `bookingStart < endTime`
and `bookingEnd > startTime` (strict comparisons), where
`bookingEnd = bookingStart + durationMinutes`. -/
def isTimeSlotAvailable (s : Store) (startTime durationMinutes : Int) : Bool :=
  let endTime := startTime + durationMinutes
  (availabilityCandidates s startTime durationMinutes).all (fun r =>
    !(decide (r.1.startAt < endTime) &&
      decide (r.1.startAt + r.1.durationMinutes > startTime)))

/-- Days since 1970-01-01 to a civil `(year, month, day)` date
(proleptic Gregorian), the classical era-based algorithm used by
civil-time libraries; models the calendar arithmetic behind
`Intl.DateTimeFormat`. -/
def civilFromDays (z0 : Int) : Int × Int × Int :=
  let z := z0 + 719468
  let era : Int := (if 0 ≤ z then z else z - 146096) / 146097
  let doe : Int := z - era * 146097
  let yoe : Int := (doe - doe / 1460 + doe / 36524 - doe / 146096) / 365
  let y : Int := yoe + era * 400
  let doy : Int := doe - (365 * yoe + yoe / 4 - yoe / 100)
  let mp : Int := (5 * doy + 2) / 153
  let d : Int := doy - (153 * mp + 2) / 5 + 1
  let m : Int := mp + (if mp < 10 then 3 else -9)
  (y + (if m ≤ 2 then 1 else 0), m, d)

/-- Civil `(year, month, day)` to days since 1970-01-01 (inverse of
`civilFromDays`). -/
def daysFromCivil (y0 m d : Int) : Int :=
  let y := y0 - (if m ≤ 2 then 1 else 0)
  let era : Int := (if 0 ≤ y then y else y - 399) / 400
  let yoe : Int := y - era * 400
  let doy : Int := (153 * (m + (if 2 < m then -3 else 9)) + 2) / 5 + d - 1
  let doe : Int := yoe * 365 + yoe / 4 - yoe / 100 + doy
  era * 146097 + doe - 719468

/-- Day of the month (in a 31-day month) of that month's last Sunday.
1970-01-01 was a Thursday, so `(days + 4) mod 7` is 0 on Sundays. -/
def lastSundayOfMonthDay (y m : Int) : Int :=
  31 - (daysFromCivil y m 31 + 4).emod 7

/-- UTC offset, in minutes, of the Europe/Stockholm timezone at a UTC
instant given in minutes since the epoch: CEST (UTC+2) between the last
Sundays of March and October at 01:00 UTC, CET (UTC+1) otherwise.
Models the timezone database lookup performed by
`Intl.DateTimeFormat('sv-SE', { timeZone: 'Europe/Stockholm', … })`. -/
def stockholmOffsetMinutes (t : Int) : Int :=
  let (y, _, _) := civilFromDays (Int.fdiv t 1440)
  let dstStart := daysFromCivil y 3 (lastSundayOfMonthDay y 3) * 1440 + 60
  let dstEnd := daysFromCivil y 10 (lastSundayOfMonthDay y 10) * 1440 + 60
  if dstStart ≤ t ∧ t < dstEnd then 120 else 60

/-- Zero-padded two-digit rendering of a (nonnegative, in-range)
calendar component. -/
def pad2 (n : Int) : String :=
  if n < 10 then "0" ++ toString n else toString n

/-- The `YYYY-MM-DD` string assembled from the `sv-SE` date formatter
parts in `getBlockedSlotsForCalendar`, for a UTC instant in minutes. -/
def formatStockholmDate (t : Int) : String :=
  let localT := t + stockholmOffsetMinutes t
  let (y, m, d) := civilFromDays (Int.fdiv localT 1440)
  toString y ++ "-" ++ pad2 m ++ "-" ++ pad2 d

/-- The `HH:MM` string produced by the `sv-SE` 24-hour time formatter in
`getBlockedSlotsForCalendar`, for a UTC instant in minutes. -/
def formatStockholmTime (t : Int) : String :=
  let localT := t + stockholmOffsetMinutes t
  let mins := Int.emod localT 1440
  pad2 (mins / 60) ++ ":" ++ pad2 (Int.emod mins 60)

/-- Stable insertion into a list ordered by booking start instant. -/
def insertByStart (x : EventBooking × WorkflowStatus) :
    List (EventBooking × WorkflowStatus) → List (EventBooking × WorkflowStatus)
  | [] => [x]
  | y :: ys =>
      if x.1.startAt ≤ y.1.startAt then x :: y :: ys else y :: insertByStart x ys

/-- `ORDER BY event_bookings.start_at`: stable sort of the joined rows
by booking start instant. -/
def sortByStart (l : List (EventBooking × WorkflowStatus)) :
    List (EventBooking × WorkflowStatus) :=
  l.foldr insertByStart []

/-- Shape of one entry returned by `getBlockedSlotsForCalendar`. -/
structure BlockedSlot where
  id : String
  date : String
  startTime : String
  endTime : String
  eventType : String
  statusSlug : String
  deriving DecidableEq, Repr

/-- `getBlockedSlotsForCalendar()`: looks up the status slugged
"approved" (returning the empty list when absent), selects the joined
booking rows whose status id equals the approved status id ordered by
start instant, and renders each one with `date` and `startTime` taken
from the literal start instant and `endTime` from
`startAt + durationMinutes`, all formatted in Europe/Stockholm. -/
def getBlockedSlotsForCalendar (s : Store) : List BlockedSlot :=
  match getWorkflowStatusBySlug s.workflowStatuses "approved" with
  | none => []
  | some approvedStatus =>
      let approvedBookings :=
        sortByStart ((joinStatus s.eventBookings s.workflowStatuses).filter
          (fun r => r.1.statusId == approvedStatus.id))
      approvedBookings.map (fun r =>
        let startDate := r.1.startAt
        let endDate := r.1.startAt + r.1.durationMinutes
        { id := r.1.id
          date := formatStockholmDate startDate
          startTime := formatStockholmTime startDate
          endTime := formatStockholmTime endDate
          eventType := r.1.eventType
          statusSlug := r.2.slug })

/-- Payload of `createWorkflowStatus` (`insertWorkflowStatusSchema`
with its zod defaults already applied). -/
structure InsertWorkflowStatus where
  slug : String
  name : String
  displayOrder : Int
  color : String
  isDefault : Bool
  isFinal : Bool
  isActive : Bool
  deriving DecidableEq, Repr

/-- Payload of `updateWorkflowStatus` (`updateWorkflowStatusSchema`):
every field optional; `none` models an absent (`undefined`) field,
which the drizzle `set` skips. -/
structure UpdateWorkflowStatus where
  name : Option String
  displayOrder : Option Int
  color : Option String
  isDefault : Option Bool
  isFinal : Option Bool
  isActive : Option Bool
  deriving DecidableEq, Repr

/-- The `UPDATE workflow_statuses SET is_default = false WHERE
is_default = true` statement both workflow-status writers issue before
installing a new default. -/
def clearDefaultFlags (statuses : List WorkflowStatus) : List WorkflowStatus :=
  statuses.map (fun st => if st.isDefault then { st with isDefault := false } else st)

/-- The row `createWorkflowStatus` inserts: the payload spread together
with the fresh id. -/
def newWorkflowStatusRow (statusData : InsertWorkflowStatus) (newId : String) :
    WorkflowStatus :=
  { id := newId
    slug := statusData.slug
    name := statusData.name
    displayOrder := statusData.displayOrder
    color := statusData.color
    isDefault := statusData.isDefault
    isFinal := statusData.isFinal
    isActive := statusData.isActive }

/-- `createWorkflowStatus(statusData)`: clears the default flag on all
rows when the new row is flagged default (JavaScript truthiness of
`statusData.isDefault`), then inserts the new row with a fresh id. -/
def createWorkflowStatus (statuses : List WorkflowStatus)
    (statusData : InsertWorkflowStatus) (newId : String) : List WorkflowStatus :=
  let statuses := if statusData.isDefault then clearDefaultFlags statuses else statuses
  statuses ++ [newWorkflowStatusRow statusData newId]

/-- The drizzle `set({...updates})` applied to one row: present fields
replace the stored value, absent (`undefined`) fields are skipped. -/
def applyWorkflowStatusPatch (st : WorkflowStatus) (u : UpdateWorkflowStatus) :
    WorkflowStatus :=
  { st with
    name := u.name.getD st.name
    displayOrder := u.displayOrder.getD st.displayOrder
    color := u.color.getD st.color
    isDefault := u.isDefault.getD st.isDefault
    isFinal := u.isFinal.getD st.isFinal
    isActive := u.isActive.getD st.isActive }

/-- `updateWorkflowStatus(id, updates)`: clears every default flag when
`updates.isDefault` is truthy (that is, present and `true`), then
patches the row with the given id; the second component is the
`returning()` row (`undefined` when no row matched). -/
def updateWorkflowStatus (statuses : List WorkflowStatus) (id : String)
    (updates : UpdateWorkflowStatus) :
    List WorkflowStatus × Option WorkflowStatus :=
  let statuses :=
    if updates.isDefault == some true then clearDefaultFlags statuses else statuses
  let updated := statuses.map (fun st =>
    if st.id == id then applyWorkflowStatusPatch st updates else st)
  (updated, (updated.filter (fun st => st.id == id)).head?)

/-- One workflow-status catalog operation, for reasoning about
sequences of `createWorkflowStatus` / `updateWorkflowStatus` calls. -/
inductive WorkflowStatusOp where
  | create (statusData : InsertWorkflowStatus) (newId : String)
  | update (id : String) (updates : UpdateWorkflowStatus)
  deriving DecidableEq, Repr

/-- Effect of one catalog operation on the `workflow_statuses` table. -/
def applyWorkflowStatusOp (statuses : List WorkflowStatus) :
    WorkflowStatusOp → List WorkflowStatus
  | .create d i => createWorkflowStatus statuses d i
  | .update id u => (updateWorkflowStatus statuses id u).1

/-- Number of catalog rows whose `isDefault` flag is set. -/
def countDefaults (statuses : List WorkflowStatus) : Nat :=
  (statuses.filter (fun st => st.isDefault)).length

/-- `getDefaultWorkflowStatus()`: first row flagged default, throwing
when none exists. -/
def getDefaultWorkflowStatus (statuses : List WorkflowStatus) :
    Except String WorkflowStatus :=
  match (statuses.filter (fun st => st.isDefault)).head? with
  | some st => .ok st
  | none =>
      .error "No default workflow status found. Please run the workflow status seed script."

/-- JavaScript truthiness of an optional string: the empty string is
falsy, exactly like an absent value. -/
def truthyString (v : Option String) : Option String :=
  match v with
  | some x => if x == "" then none else some x
  | none => none

/-- Payload of `createEventBooking` (`insertEventBookingSchema` plus the
optional explicit status id the storage method accepts). -/
structure InsertEventBooking where
  eventType : String
  contactName : String
  contactEmail : String
  contactPhone : String
  startAt : Int
  durationMinutes : Int
  additionalNotes : Option String
  statusId : Option String
  deriving DecidableEq, Repr

/-- `getEventBooking(id)`: the joined select filtered on the booking id,
destructured as `[booking]`. -/
def getEventBooking (s : Store) (id : String) :
    Option (EventBooking × WorkflowStatus) :=
  ((joinStatus s.eventBookings s.workflowStatuses).filter
    (fun r => r.1.id == id)).head?

/-- `createEventBooking(bookingData)`: falls back to the default status
when no truthy status id is supplied (throwing before any insert when
no default exists), inserts the row with a fresh id, and re-reads it
joined with its status.  The returned store carries the state after the
call, also on the throwing paths. -/
def createEventBooking (s : Store) (bookingData : InsertEventBooking)
    (newId : String) : Store × Except String (EventBooking × WorkflowStatus) :=
  let explicitStatus := truthyString bookingData.statusId
  let statusId : Except String String :=
    match explicitStatus with
    | some sid => .ok sid
    | none => (getDefaultWorkflowStatus s.workflowStatuses).map (fun st => st.id)
  match statusId with
  | .error e => (s, .error e)
  | .ok sid =>
      let booking : EventBooking :=
        { id := newId
          eventType := bookingData.eventType
          contactName := bookingData.contactName
          contactEmail := bookingData.contactEmail
          contactPhone := bookingData.contactPhone
          startAt := bookingData.startAt
          durationMinutes := bookingData.durationMinutes
          additionalNotes := bookingData.additionalNotes
          statusId := sid
          assignedTo := none }
      let s1 := { s with eventBookings := s.eventBookings ++ [booking] }
      match getEventBooking s1 newId with
      | some bws => (s1, .ok bws)
      | none => (s1, .error "Failed to retrieve created booking with status")

/-- Payload of the public booking form (`eventBookingFormSchema`).
`durationHours` is an exact rational: the form offers half-hour steps,
on which JavaScript float arithmetic is exact. -/
structure EventBookingForm where
  eventType : String
  contactName : String
  contactEmail : String
  contactPhone : String
  requestedDate : String
  startTime : String
  durationHours : Rat
  additionalNotes : Option String
  deriving DecidableEq, Repr

/-- Numeric value of an ASCII digit character. -/
def digitVal (c : Char) : Int :=
  Int.ofNat (c.toNat - 48)

/-- Model of `new Date(`${requestedDate}T${startTime}`)` for a
well-formed `YYYY-MM-DD` date and `HH:MM` time: the ECMAScript date
parser interprets a date-time string without offset as host-local
time, so the host timezone offset (minutes east of UTC) is an explicit
parameter.  Malformed strings, which JavaScript turns into an Invalid
Date, are outside the modelled domain. -/
def parseLocalDateTime (dateStr timeStr : String) (tzOffsetMinutes : Int) : Int :=
  match dateStr.toList, timeStr.toList with
  | [y1, y2, y3, y4, _, m1, m2, _, d1, d2], [h1, h2, _, mi1, mi2] =>
      let y := 1000 * digitVal y1 + 100 * digitVal y2 + 10 * digitVal y3 + digitVal y4
      let m := 10 * digitVal m1 + digitVal m2
      let d := 10 * digitVal d1 + digitVal d2
      let hh := 10 * digitVal h1 + digitVal h2
      let mi := 10 * digitVal mi1 + digitVal mi2
      daysFromCivil y m d * 1440 + 60 * hh + mi - tzOffsetMinutes
  | _, _ => 0

/-- `createEventBookingFromForm(formData)`: converts the form fields to
the insert payload (`Math.round(durationHours * 60)`, empty notes
collapsed to NULL by `|| null`), fetches the default status — throwing
before any insert when none exists — and delegates to
`createEventBooking`. -/
def createEventBookingFromForm (s : Store) (formData : EventBookingForm)
    (tzOffsetMinutes : Int) (newId : String) :
    Store × Except String (EventBooking × WorkflowStatus) :=
  let startAt := parseLocalDateTime formData.requestedDate formData.startTime tzOffsetMinutes
  let durationMinutes := round (formData.durationHours * 60)
  match getDefaultWorkflowStatus s.workflowStatuses with
  | .error e => (s, .error e)
  | .ok defaultStatus =>
      createEventBooking s
        { eventType := formData.eventType
          contactName := formData.contactName
          contactEmail := formData.contactEmail
          contactPhone := formData.contactPhone
          startAt := startAt
          durationMinutes := durationMinutes
          additionalNotes := truthyString formData.additionalNotes
          statusId := some defaultStatus.id }
        newId

/-- Payload of `updateEventBooking` (`updateEventBookingSchema`): the
outer `Option` models an absent (`undefined`) field; for the nullable
notes column the inner `Option` models SQL NULL. -/
structure UpdateEventBooking where
  statusId : Option String
  assignedTo : Option String
  additionalNotes : Option (Option String)
  deriving DecidableEq, Repr

/-- The drizzle `set({...updates})` of `updateEventBooking` applied to
one booking row: present fields replace the stored value. -/
def applyBookingPatch (b : EventBooking) (u : UpdateEventBooking) : EventBooking :=
  { b with
    statusId := u.statusId.getD b.statusId
    assignedTo := match u.assignedTo with
      | some v => some v
      | none => b.assignedTo
    additionalNotes := match u.additionalNotes with
      | some v => v
      | none => b.additionalNotes }

/-- The Swedish status-change log message, with the old and new status
display names. -/
def statusChangeDetails (oldName newName : String) : String :=
  "Status ändrad från \"" ++ oldName ++ "\" till \"" ++ newName ++ "\""

/-- The Swedish assignee-change log message. -/
def assigneeChangeDetails (oldAssignee newAssignee : String) : String :=
  "Ansvarig ändrad från \"" ++ oldAssignee ++ "\" till \"" ++ newAssignee ++ "\""

/-- `value || 'Ingen'`: display form of a possibly missing assignee. -/
def assigneeOrIngen (v : Option String) : String :=
  match truthyString v with
  | some x => x
  | none => "Ingen"

/-- `updateEventBooking(id, updates, userId?, userName?)`: reads the
current joined booking (returning `undefined` when absent), patches the
row, re-reads it joined — returning `undefined`, with no log written,
when the patched status id resolves to no catalog row — and then
appends one activity-log row per changed field, in source order:
`status_changed` (old and new status display names), `assigned`,
`notes_added`.  A field whose submitted value is absent or equal to the
stored one produces no row; comparisons mirror the JavaScript
truthiness and strict-inequality checks of the source. -/
def updateEventBooking (s : Store) (id : String) (updates : UpdateEventBooking)
    (userId userName : Option String) :
    Store × Option (EventBooking × WorkflowStatus) :=
  match getEventBooking s id with
  | none => (s, none)
  | some existingBooking =>
      let s1 : Store :=
        { s with eventBookings := s.eventBookings.map (fun b =>
            if b.id == id then applyBookingPatch b updates else b) }
      match (s1.eventBookings.filter (fun b => b.id == id)).head? with
      | none => (s1, none)
      | some _ =>
          match getEventBooking s1 id with
          | none => (s1, none)
          | some updatedBookingWithStatus =>
              let logUserId := truthyString userId
              let logUserName :=
                match truthyString userName with
                | some u => u
                | none => "System"
              let statusLogs : List ActivityLog :=
                if (match updates.statusId with
                    | some ns => !(ns == "") && !(ns == existingBooking.1.statusId)
                    | none => false) then
                  [{ bookingId := id
                     action := .status_changed
                     details := statusChangeDetails existingBooking.2.name
                       updatedBookingWithStatus.2.name
                     userId := logUserId
                     userName := some logUserName }]
                else []
              let assignLogs : List ActivityLog :=
                if (match updates.assignedTo with
                    | some na => !(some na == existingBooking.1.assignedTo)
                    | none => false) then
                  [{ bookingId := id
                     action := .assigned
                     details := assigneeChangeDetails
                       (assigneeOrIngen existingBooking.1.assignedTo)
                       (assigneeOrIngen updates.assignedTo)
                     userId := logUserId
                     userName := some logUserName }]
                else []
              let notesLogs : List ActivityLog :=
                if (match updates.additionalNotes with
                    | some nn => !(nn == existingBooking.1.additionalNotes)
                    | none => false) then
                  [{ bookingId := id
                     action := .notes_added
                     details :=
                       match updates.additionalNotes with
                       | some (some v) =>
                           if v == "" then "Anteckningar togs bort"
                           else "Anteckningar uppdaterades"
                       | _ => "Anteckningar togs bort"
                     userId := logUserId
                     userName := some logUserName }]
                else []
              ({ s1 with activityLogs :=
                   s1.activityLogs ++ statusLogs ++ assignLogs ++ notesLogs },
               some updatedBookingWithStatus)

/-- Buffer-before minutes of the event type carrying the given slug in
the catalog; zero when the slug resolves to no catalog row (spec §4.1:
a missing event type is treated as zero-buffer). -/
def bufferBeforeOf (catalog : List EventType) (slug : String) : Int :=
  match (catalog.filter (fun et => et.slug == slug)).head? with
  | some et => et.bufferBeforeMinutes
  | none => 0

/-- Buffer-after minutes of the event type carrying the given slug in
the catalog; zero when the slug resolves to no catalog row. -/
def bufferAfterOf (catalog : List EventType) (slug : String) : Int :=
  match (catalog.filter (fun et => et.slug == slug)).head? with
  | some et => et.bufferAfterMinutes
  | none => 0

/-- Modelled from the spec: the start of a booking's padded interval,
`startAt − bufferBefore` with the buffer of the booking's own event
type.  No implementation in the repository computes this; it is stated
here, in the spec's words, to compare the spec's padded-interval
semantics against what the code does. -/
def specPaddedStart (s : Store) (b : EventBooking) : Int :=
  b.startAt - bufferBeforeOf s.eventTypes b.eventType

/-- Modelled from the spec: the end of a booking's padded interval,
`startAt + durationMinutes + bufferAfter` with the buffer of the
booking's own event type. -/
def specPaddedEnd (s : Store) (b : EventBooking) : Int :=
  b.startAt + b.durationMinutes + bufferAfterOf s.eventTypes b.eventType

/-! ### Concrete fixtures

Catalog rows taken from the seed data (the "luciatag" event type is
seeded with a 30-minute buffer on each side) and small stores used as
concrete instances in the theorems below. -/

/-- A status slugged "approved", active, not the default. -/
def wsApproved : WorkflowStatus :=
  ⟨"ws-approved", "approved", "Godkänd", 3, "green", false, false, true⟩

/-- A status slugged "pending", active, flagged default (as seeded). -/
def wsPending : WorkflowStatus :=
  ⟨"ws-pending", "pending", "Väntar på granskning", 1, "yellow", true, false, true⟩

/-- A status slugged "reviewing", active. -/
def wsReviewing : WorkflowStatus :=
  ⟨"ws-reviewing", "reviewing", "Granskas", 2, "blue", false, false, true⟩

/-- The seeded "luciatag" event type: 30 minutes of buffer before and
after. -/
def etLucia : EventType :=
  ⟨"et-lucia", "luciatag", "Luciatåg", 30, 30, 30, true, 1⟩

/-- An approved Lucia booking occupying minutes `[600, 720)`; its
spec-padded interval is `[570, 750)`. -/
def bkLucia : EventBooking :=
  ⟨"bk-1", "luciatag", "Anna Andersson", "anna@example.com", "0701234567",
   600, 120, none, "ws-approved", none⟩

/-- Store with one approved Lucia booking and no default status. -/
def availStore : Store := ⟨[wsApproved], [etLucia], [bkLucia], []⟩

/-- Bookings far in the past (store order first): `[i, i + 1)` for
`i < 10`. -/
def farBooking (i : Nat) : EventBooking :=
  ⟨"bk-far-" ++ toString i, "luciatag", "Berit", "b@example.com", "0700000000",
   Int.ofNat i, 1, none, "ws-approved", none⟩

/-- A booking occupying `[1000, 1060)`, stored after the ten far ones. -/
def nearBooking : EventBooking :=
  ⟨"bk-near", "luciatag", "Carl", "c@example.com", "0700000001",
   1000, 60, none, "ws-approved", none⟩

/-- Store whose first ten bookings (in store order) start far from the
candidate while the eleventh coincides with it. -/
def scanStore : Store :=
  ⟨[wsApproved], [etLucia], ((List.range 10).map farBooking) ++ [nearBooking], []⟩

/-- Minutes since the epoch of 2024-12-13T10:00:00Z (a CET instant:
Stockholm offset +60). -/
def decemberStart : Int := daysFromCivil 2024 12 13 * 1440 + 600

/-- An approved Lucia booking on 2024-12-13, 10:00–12:00 UTC
(11:00–13:00 Stockholm); its spec-padded interval is 10:30–13:30
Stockholm. -/
def bkDecember : EventBooking :=
  ⟨"bk-dec", "luciatag", "Anna Andersson", "anna@example.com", "0701234567",
   decemberStart, 120, none, "ws-approved", none⟩

/-- Store holding the December booking. -/
def calStore : Store := ⟨[wsApproved], [etLucia], [bkDecember], []⟩

/-- Booking payload with no explicit status id, used to witness C10. -/
def plainInsert : InsertEventBooking :=
  ⟨"luciatag", "Anna Andersson", "anna@example.com", "0701234567", 600, 120, none, none⟩

/-- Form payload used to witness C10. -/
def plainForm : EventBookingForm :=
  ⟨"luciatag", "Anna Andersson", "anna@example.com", "0701234567",
   "2024-12-13", "10:00", 2, none⟩

/-- A patch that merely switches the default flag off. -/
def defaultClearPatch : UpdateWorkflowStatus :=
  ⟨none, none, none, some false, none, none⟩

/-- A booking row whose private fields carry no information, the image
of the projection that forgets contact data, notes and assignee. -/
def scrubBooking (b : EventBooking) : EventBooking :=
  { b with contactName := "", contactEmail := "", contactPhone := "",
           additionalNotes := none, assignedTo := none }

/-- `scrubBooking` lifted to joined rows. -/
def scrubRow (r : EventBooking × WorkflowStatus) : EventBooking × WorkflowStatus :=
  (scrubBooking r.1, r.2)

/-- Freshness of the id a single catalog operation inserts. -/
def opFresh (l : List WorkflowStatus) : WorkflowStatusOp → Bool
  | .create _ i => !((l.map (fun st => st.id)).contains i)
  | .update _ _ => true

/-- Freshness of every id inserted along a sequence of catalog
operations (matching the practical freshness of `randomUUID()`). -/
def opsFresh (l : List WorkflowStatus) : List WorkflowStatusOp → Bool
  | [] => true
  | op :: ops => opFresh l op && opsFresh (applyWorkflowStatusOp l op) ops

/-! ### Helper lemmas -/

theorem mem_insertByStart {x y : EventBooking × WorkflowStatus}
    {l : List (EventBooking × WorkflowStatus)} :
    x ∈ insertByStart y l ↔ x = y ∨ x ∈ l := by
  induction l with
  | nil => simp [insertByStart]
  | cons z zs ih =>
      simp only [insertByStart]
      split
      · simp [List.mem_cons]
      · simp only [List.mem_cons, ih]
        tauto

theorem mem_sortByStart {x : EventBooking × WorkflowStatus}
    {l : List (EventBooking × WorkflowStatus)} :
    x ∈ sortByStart l ↔ x ∈ l := by
  induction l with
  | nil => simp [sortByStart]
  | cons z zs ih =>
      show x ∈ insertByStart z (sortByStart zs) ↔ _
      rw [mem_insertByStart, ih]
      simp [List.mem_cons]

theorem mem_joinStatus {bs : List EventBooking} {sts : List WorkflowStatus}
    {r : EventBooking × WorkflowStatus} :
    r ∈ joinStatus bs sts ↔ r.1 ∈ bs ∧ r.2 ∈ sts ∧ r.2.id = r.1.statusId := by
  cases r with
  | mk b st =>
      simp only [joinStatus, List.mem_flatMap, List.mem_map, List.mem_filter,
        beq_iff_eq, Prod.mk.injEq]
      constructor
      · rintro ⟨a, ha, st', ⟨hst', hid⟩, rfl, rfl⟩
        exact ⟨ha, hst', hid⟩
      · rintro ⟨hb, hst, hid⟩
        exact ⟨b, hb, st, ⟨hst, hid⟩, rfl, rfl⟩

theorem joinStatus_append (l1 l2 : List EventBooking) (sts : List WorkflowStatus) :
    joinStatus (l1 ++ l2) sts = joinStatus l1 sts ++ joinStatus l2 sts := by
  simp [joinStatus]

theorem joinStatus_cons (b : EventBooking) (l : List EventBooking)
    (sts : List WorkflowStatus) :
    joinStatus (b :: l) sts =
      (sts.filter (fun st => st.id == b.statusId)).map (fun st => (b, st)) ++
        joinStatus l sts := by
  simp [joinStatus]

theorem getWorkflowStatusBySlug_mem {l : List WorkflowStatus} {slug : String}
    {a : WorkflowStatus} (h : getWorkflowStatusBySlug l slug = some a) :
    a ∈ l ∧ a.slug = slug := by
  unfold getWorkflowStatusBySlug at h
  cases hf : l.filter (fun st => st.slug == slug) with
  | nil => rw [hf] at h; simp at h
  | cons x xs =>
      rw [hf] at h
      simp only [List.head?_cons, Option.some.injEq] at h
      subst h
      have hx : x ∈ l.filter (fun st => st.slug == slug) := by
        rw [hf]; exact List.mem_cons_self x xs
      rw [List.mem_filter] at hx
      exact ⟨hx.1, by simpa [beq_iff_eq] using hx.2⟩

theorem filter_id_eq_nil {l : List EventBooking} {i : String}
    (h : ∀ x ∈ l, x.id ≠ i) :
    l.filter (fun x => x.id == i) = [] := by
  rw [List.filter_eq_nil_iff]
  intro x hx
  simpa [beq_iff_eq] using h x hx

theorem filter_id_joinStatus_eq_nil {l : List EventBooking}
    {sts : List WorkflowStatus} {i : String} (h : ∀ x ∈ l, x.id ≠ i) :
    (joinStatus l sts).filter (fun r => r.1.id == i) = [] := by
  rw [List.filter_eq_nil_iff]
  intro r hr
  have := (mem_joinStatus.mp hr).1
  simpa [beq_iff_eq] using h _ this

theorem clearDefaultFlags_isDefault {l : List WorkflowStatus} :
    ∀ st ∈ clearDefaultFlags l, st.isDefault = false := by
  intro st h
  rw [clearDefaultFlags, List.mem_map] at h
  obtain ⟨x, _, rfl⟩ := h
  cases hx : x.isDefault <;> simp [hx]

theorem clearDefaultFlags_ids (l : List WorkflowStatus) :
    (clearDefaultFlags l).map (fun st => st.id) = l.map (fun st => st.id) := by
  rw [clearDefaultFlags, List.map_map]
  refine List.map_congr_left (fun x _ => ?_)
  cases hx : x.isDefault <;> simp [hx]

theorem countDefaults_append (l1 l2 : List WorkflowStatus) :
    countDefaults (l1 ++ l2) = countDefaults l1 + countDefaults l2 := by
  simp [countDefaults, List.filter_append]

theorem countDefaults_clear (l : List WorkflowStatus) :
    countDefaults (clearDefaultFlags l) = 0 := by
  rw [countDefaults, List.length_eq_zero]
  rw [List.filter_eq_nil_iff]
  intro st hst
  simp [clearDefaultFlags_isDefault st hst]

theorem countDefaults_eq_countP (l : List WorkflowStatus) :
    countDefaults l = l.countP (fun st => st.isDefault) := by
  rw [countDefaults, List.countP_eq_length_filter]

theorem countP_id_le_one {l : List WorkflowStatus} {i : String}
    (h : (l.map (fun st => st.id)).Nodup) :
    l.countP (fun st => st.id == i) ≤ 1 := by
  induction l with
  | nil => simp
  | cons x xs ih =>
      rw [List.map_cons, List.nodup_cons] at h
      rw [List.countP_cons]
      by_cases hx : x.id = i
      · have hzero : xs.countP (fun st => st.id == i) = 0 := by
          rw [List.countP_eq_zero]
          intro y hy
          have : y.id ≠ x.id := by
            intro he
            exact h.1 (by rw [← he]; exact List.mem_map_of_mem _ hy)
          simp [beq_iff_eq, hx ▸ this]
        simp [hzero, hx]
      · simpa [hx] using ih h.2

theorem joinStatus_scrub (bs : List EventBooking) (sts : List WorkflowStatus) :
    joinStatus (bs.map scrubBooking) sts = (joinStatus bs sts).map scrubRow := by
  induction bs with
  | nil => rfl
  | cons b bl ih =>
      rw [List.map_cons, joinStatus_cons, joinStatus_cons, List.map_append, ← ih]
      congr 1
      rw [List.map_map]
      rfl

theorem filter_statusId_map_scrub (l : List (EventBooking × WorkflowStatus))
    (i : String) :
    (l.map scrubRow).filter (fun r => r.1.statusId == i) =
      (l.filter (fun r => r.1.statusId == i)).map scrubRow := by
  induction l with
  | nil => rfl
  | cons r rs ih =>
      rw [List.map_cons, List.filter_cons, List.filter_cons]
      cases hr : (r.1.statusId == i) with
      | false => simpa [scrubRow, scrubBooking, hr] using ih
      | true => simpa [scrubRow, scrubBooking, hr] using ih

theorem scrubRow_fst_startAt (r : EventBooking × WorkflowStatus) :
    (scrubRow r).1.startAt = r.1.startAt := rfl

theorem insertByStart_scrub (x : EventBooking × WorkflowStatus)
    (l : List (EventBooking × WorkflowStatus)) :
    insertByStart (scrubRow x) (l.map scrubRow) = (insertByStart x l).map scrubRow := by
  induction l with
  | nil => rfl
  | cons y ys ih =>
      simp only [List.map_cons, insertByStart, scrubRow_fst_startAt]
      split_ifs
      · rfl
      · rw [List.map_cons]
        exact congrArg _ ih

theorem sortByStart_scrub (l : List (EventBooking × WorkflowStatus)) :
    sortByStart (l.map scrubRow) = (sortByStart l).map scrubRow := by
  induction l with
  | nil => rfl
  | cons x xs ih =>
      show insertByStart (scrubRow x) (sortByStart (xs.map scrubRow)) = _
      rw [ih]
      exact insertByStart_scrub x (sortByStart xs)

theorem updateWorkflowStatus_fst (l : List WorkflowStatus) (id : String)
    (u : UpdateWorkflowStatus) :
    (updateWorkflowStatus l id u).1 =
      (if u.isDefault == some true then clearDefaultFlags l else l).map
        (fun st => if st.id == id then applyWorkflowStatusPatch st u else st) := rfl

theorem patch_map_ids (m : List WorkflowStatus) (id : String)
    (u : UpdateWorkflowStatus) :
    ((m.map (fun st => if st.id == id then applyWorkflowStatusPatch st u else st)).map
      (fun st => st.id)) = m.map (fun st => st.id) := by
  rw [List.map_map]
  refine List.map_congr_left (fun st _ => ?_)
  by_cases hid : (st.id == id) = true <;>
    simp [Function.comp, hid, applyWorkflowStatusPatch]

theorem countDefaults_map_patch_le (l : List WorkflowStatus) (id : String)
    (u : UpdateWorkflowStatus) (hu : u.isDefault ≠ some true) :
    countDefaults (l.map (fun st =>
      if st.id == id then applyWorkflowStatusPatch st u else st)) ≤ countDefaults l := by
  rw [countDefaults_eq_countP, countDefaults_eq_countP, List.countP_map]
  refine List.countP_mono_left (fun st _ h => ?_)
  simp only [Function.comp] at h
  by_cases hid : (st.id == id) = true
  · rw [if_pos hid] at h
    rcases hud : u.isDefault with _ | b
    · simpa [applyWorkflowStatusPatch, hud] using h
    · cases b
      · simp [applyWorkflowStatusPatch, hud] at h
      · exact absurd hud hu
  · rwa [if_neg hid] at h

theorem countDefaults_update_some_true (l : List WorkflowStatus) (id : String)
    (u : UpdateWorkflowStatus) (hu : u.isDefault = some true)
    (h2 : (l.map (fun st => st.id)).Nodup) :
    countDefaults ((clearDefaultFlags l).map (fun st =>
      if st.id == id then applyWorkflowStatusPatch st u else st)) ≤ 1 := by
  rw [countDefaults_eq_countP, List.countP_map]
  have step1 : (clearDefaultFlags l).countP
      ((fun st => st.isDefault) ∘
        (fun st => if st.id == id then applyWorkflowStatusPatch st u else st)) =
      (clearDefaultFlags l).countP (fun st => st.id == id) := by
    refine List.countP_congr (fun st hst => ?_)
    have hfalse := clearDefaultFlags_isDefault st hst
    by_cases hid : (st.id == id) = true
    · simp [Function.comp, hid, applyWorkflowStatusPatch, hu]
    · simp [Function.comp, hid, hfalse]
  rw [step1]
  have step2 : (clearDefaultFlags l).countP (fun st => st.id == id) =
      l.countP (fun st => st.id == id) := by
    rw [clearDefaultFlags, List.countP_map]
    refine List.countP_congr (fun st _ => ?_)
    cases hd : st.isDefault <;> simp [Function.comp, hd]
  rw [step2]
  exact countP_id_le_one h2

theorem createWorkflowStatus_count (l : List WorkflowStatus)
    (d : InsertWorkflowStatus) (i : String) (h1 : countDefaults l ≤ 1) :
    countDefaults (createWorkflowStatus l d i) ≤ 1 := by
  unfold createWorkflowStatus
  by_cases hd : d.isDefault = true
  · rw [if_pos hd, countDefaults_append, countDefaults_clear]
    simp [countDefaults, newWorkflowStatusRow, hd]
  · rw [if_neg hd, countDefaults_append]
    have hrow : countDefaults [newWorkflowStatusRow d i] = 0 := by
      simp [countDefaults, newWorkflowStatusRow, Bool.of_not_eq_true hd]
    omega

theorem applyWorkflowStatusOp_preserves (l : List WorkflowStatus)
    (op : WorkflowStatusOp) (h1 : countDefaults l ≤ 1)
    (h2 : (l.map (fun st => st.id)).Nodup) (hf : opFresh l op = true) :
    countDefaults (applyWorkflowStatusOp l op) ≤ 1 ∧
      ((applyWorkflowStatusOp l op).map (fun st => st.id)).Nodup := by
  cases op with
  | create d i =>
      have hi : i ∉ l.map (fun st => st.id) := by
        simp only [opFresh, Bool.not_eq_true'] at hf
        intro hmem
        rw [List.contains_eq_any_beq] at hf
        have : (l.map (fun st => st.id)).any (fun x => i == x) = true := by
          rw [List.any_eq_true]
          exact ⟨i, hmem, by simp⟩
        rw [this] at hf
        cases hf
      constructor
      · exact createWorkflowStatus_count l d i h1
      · show ((createWorkflowStatus l d i).map (fun st => st.id)).Nodup
        unfold createWorkflowStatus
        have key : ∀ m : List WorkflowStatus,
            m.map (fun st => st.id) = l.map (fun st => st.id) →
            ((m ++ [newWorkflowStatusRow d i]).map (fun st => st.id)).Nodup := by
          intro m hm
          rw [List.map_append, hm]
          rw [List.nodup_append]
          refine ⟨h2, List.nodup_singleton _, ?_⟩
          intro a ha hb
          simp only [List.map_cons, List.map_nil, List.mem_singleton] at hb
          subst hb
          exact hi ha
        by_cases hd : d.isDefault = true
        · rw [if_pos hd]
          exact key _ (clearDefaultFlags_ids l)
        · rw [if_neg hd]
          exact key _ rfl
  | update id u =>
      constructor
      · show countDefaults (updateWorkflowStatus l id u).1 ≤ 1
        rw [updateWorkflowStatus_fst]
        by_cases hd : u.isDefault = some true
        · rw [if_pos (by simp [hd])]
          exact countDefaults_update_some_true l id u hd h2
        · rw [if_neg (by simp [hd])]
          exact le_trans (countDefaults_map_patch_le l id u hd) h1
      · show (((updateWorkflowStatus l id u).1).map (fun st => st.id)).Nodup
        rw [updateWorkflowStatus_fst]
        by_cases hd : u.isDefault = some true
        · rw [if_pos (by simp [hd]), patch_map_ids, clearDefaultFlags_ids]
          exact h2
        · rw [if_neg (by simp [hd]), patch_map_ids]
          exact h2

theorem foldl_defaults_le (ops : List WorkflowStatusOp) (l : List WorkflowStatus)
    (h1 : countDefaults l ≤ 1) (h2 : (l.map (fun st => st.id)).Nodup)
    (hf : opsFresh l ops = true) :
    countDefaults (ops.foldl applyWorkflowStatusOp l) ≤ 1 := by
  induction ops generalizing l with
  | nil => simpa using h1
  | cons op ops ih =>
      rw [opsFresh, Bool.and_eq_true] at hf
      have step := applyWorkflowStatusOp_preserves l op h1 h2 hf.1
      rw [List.foldl_cons]
      exact ih _ step.1 step.2 hf.2

/-! ### Claim theorems -/

/-- C1: the code's availability check ignores the buffer minutes of the
event-type catalog.  The candidate slot `[720, 780)` (no candidate
event type, hence zero candidate buffers) starts exactly at the
booking's literal end, but the booking's spec-padded interval
`[570, 750)` overlaps the candidate's padded interval `[720, 780)`, so
the claimed padded-interval semantics demands `false`; the code
returns `true`, with the booking among the scanned candidate rows.
(`isTimeSlotAvailable` also accepts no candidate event type at all, so
the claimed third parameter does not exist.) -/
theorem availability_ignores_buffers :
    isTimeSlotAvailable availStore 720 60 = true ∧
    specPaddedStart availStore bkLucia < 720 + 60 ∧
    720 < specPaddedEnd availStore bkLucia ∧
    (bkLucia, wsApproved) ∈ relevantCandidateRows availStore 720 60 := by
  decide

/-- C3 (counterexample): the off-by-one boundary of the claim is stated
on padded instants, and fails on the code.  The booking's spec-padded
end is 750, so per the claim a zero-buffer candidate starting at
`750 − 1` must be rejected; the code, comparing literal instants,
accepts both 750 and 749. -/
theorem strict_boundary_padded_fails :
    specPaddedEnd availStore bkLucia = 750 ∧
    isTimeSlotAvailable availStore 750 60 = true ∧
    isTimeSlotAvailable availStore (750 - 1) 60 = true := by
  decide

/-- C3 (amended): the strict half-open boundary holds at the instants
the code actually compares — the literal booking interval.  For a
store holding one booking whose status is active and not slugged
"pending", a candidate starting exactly at the booking's literal end is
accepted, and a candidate starting one minute earlier is rejected. -/
theorem strict_boundary_literal
    (st : WorkflowStatus) (ets : List EventType) (logs : List ActivityLog)
    (b : EventBooking) (d : Int)
    (hact : st.isActive = true) (hslug : st.slug ≠ "pending")
    (hid : b.statusId = st.id) (hd : 1 ≤ d) (hbd : 1 ≤ b.durationMinutes) :
    isTimeSlotAvailable ⟨[st], ets, [b], logs⟩ (b.startAt + b.durationMinutes) d = true ∧
    isTimeSlotAvailable ⟨[st], ets, [b], logs⟩ (b.startAt + b.durationMinutes - 1) d = false := by
  have hslugf : (st.slug == "pending") = false := beq_eq_false_iff_ne.mpr hslug
  have hpend : getWorkflowStatusBySlug [st] "pending" = none := by
    simp [getWorkflowStatusBySlug, List.filter, hslugf]
  have hjoin : joinStatus [b] [st] = [(b, st)] := by
    simp [joinStatus, List.filter, hid]
  constructor
  · simp only [isTimeSlotAvailable, availabilityCandidates, relevantCandidateRows,
      hpend, hjoin]
    simp only [List.filter, hact]
    have hle : (decide (b.startAt ≤ b.startAt + b.durationMinutes + d)) = true := by
      simp; omega
    simp only [hle, Bool.true_and, Bool.and_true, List.take, List.all_cons, List.all_nil]
    simp
  · simp only [isTimeSlotAvailable, availabilityCandidates, relevantCandidateRows,
      hpend, hjoin]
    simp only [List.filter, hact]
    have hle : (decide (b.startAt ≤ b.startAt + b.durationMinutes - 1 + d)) = true := by
      simp; omega
    simp only [hle, Bool.true_and, Bool.and_true, List.take, List.all_cons, List.all_nil]
    simp
    omega

/-- C3 (witness for the amended theorem): the literal boundary facts
evaluated at the concrete store `availStore`: a 60-minute candidate at
the booking's literal end 720 is accepted, at 719 rejected. -/
theorem strict_boundary_literal_witness :
    isTimeSlotAvailable ⟨[wsApproved], [etLucia], [bkLucia], []⟩ (600 + 120) 60 = true ∧
    isTimeSlotAvailable ⟨[wsApproved], [etLucia], [bkLucia], []⟩ (600 + 120 - 1) 60 = false :=
  strict_boundary_literal wsApproved [etLucia] [] bkLucia 60
    (by decide) (by decide) (by decide) (by decide) (by decide)

/-- C5 (counterexample): the scan cap keeps the first ten relevant rows
in store order, not the ten nearest by start instant.  For the
candidate `[1000, 1060)` the row for `nearBooking` — at distance zero
from the candidate start, and a true conflict — is relevant but not
among the ten scanned rows, every one of which starts at distance at
least 991; the check consequently returns `true` despite the
conflict. -/
theorem scan_not_nearest :
    isTimeSlotAvailable scanStore 1000 60 = true ∧
    (nearBooking, wsApproved) ∈ relevantCandidateRows scanStore 1000 60 ∧
    (nearBooking, wsApproved) ∉ availabilityCandidates scanStore 1000 60 ∧
    (nearBooking.startAt < 1000 + 60 ∧ 1000 < nearBooking.startAt + nearBooking.durationMinutes) ∧
    (availabilityCandidates scanStore 1000 60).all
      (fun r => decide (r.1.startAt + 991 ≤ 1000)) = true := by
  decide

/-- C5 (amended): the availability scan examines at most ten rows —
exactly the first ten, in store order, of the WHERE-filtered rows
(relevant bookings starting no later than the candidate's end); the
check's verdict is computed from those rows alone. -/
theorem availability_scan_cap (s : Store) (startTime durationMinutes : Int) :
    (availabilityCandidates s startTime durationMinutes).length ≤ 10 ∧
    availabilityCandidates s startTime durationMinutes =
      (relevantCandidateRows s startTime durationMinutes).take 10 ∧
    (∀ r ∈ availabilityCandidates s startTime durationMinutes,
      r.1.startAt ≤ startTime + durationMinutes) ∧
    isTimeSlotAvailable s startTime durationMinutes =
      (availabilityCandidates s startTime durationMinutes).all
        (fun r => !(decide (r.1.startAt < startTime + durationMinutes) &&
          decide (r.1.startAt + r.1.durationMinutes > startTime))) := by
  refine ⟨?_, rfl, ?_, rfl⟩
  · unfold availabilityCandidates
    simp
  · intro r hr
    have hr' : r ∈ relevantCandidateRows s startTime durationMinutes :=
      List.take_subset _ _ hr
    unfold relevantCandidateRows at hr'
    rcases hmatch : getWorkflowStatusBySlug s.workflowStatuses "pending" with _ | p
    · rw [hmatch] at hr'
      rw [List.mem_filter] at hr'
      have := hr'.2
      simp only [Bool.and_eq_true, decide_eq_true_eq] at this
      exact this.1
    · rw [hmatch] at hr'
      rw [List.mem_filter] at hr'
      have := hr'.2
      simp only [Bool.and_eq_true, decide_eq_true_eq] at this
      exact this.1.1

/-- C5 (witness for the amended theorem): a scanned row of the concrete
store `scanStore` applied to the bound of the amended theorem. -/
theorem availability_scan_cap_witness :
    (farBooking 0, wsApproved) ∈ availabilityCandidates scanStore 1000 60 ∧
    (farBooking 0).startAt ≤ 1000 + 60 :=
  ⟨by decide, (availability_scan_cap scanStore 1000 60).2.2.1 (farBooking 0, wsApproved)
    (by decide)⟩

/-- C2 (counterexample): the published blocked slot renders the literal
booking times, not the buffer-padded window.  The December booking's
slot reads 11:00–13:00 Stockholm time, while the spec-padded interval
of the claim would read 10:30–13:30. -/
theorem blocked_slot_not_padded :
    (getBlockedSlotsForCalendar calStore).map (fun r => r.startTime) = ["11:00"] ∧
    (getBlockedSlotsForCalendar calStore).map (fun r => r.endTime) = ["13:00"] ∧
    formatStockholmTime (specPaddedStart calStore bkDecember) = "10:30" ∧
    formatStockholmTime (specPaddedEnd calStore bkDecember) = "13:30" := by
  decide

/-- C10: with no default status in the catalog, creating a booking with
no explicit status id — directly or from the public form — returns the
"No default workflow status found" error and leaves the store (hence
the bookings table) unchanged: the lookup throws before any insert. -/
theorem create_booking_no_default_throws
    (s : Store) (bookingData : InsertEventBooking) (newId : String)
    (formData : EventBookingForm) (tzOffsetMinutes : Int) (newId2 : String)
    (hnone : s.workflowStatuses.filter (fun st => st.isDefault) = [])
    (hexplicit : bookingData.statusId = none) :
    createEventBooking s bookingData newId =
      (s, .error "No default workflow status found. Please run the workflow status seed script.") ∧
    createEventBookingFromForm s formData tzOffsetMinutes newId2 =
      (s, .error "No default workflow status found. Please run the workflow status seed script.") := by
  constructor
  · simp [createEventBooking, truthyString, hexplicit, getDefaultWorkflowStatus, hnone,
      Except.map]
  · simp [createEventBookingFromForm, getDefaultWorkflowStatus, hnone]

/-- C10 (witness): the no-default error paths evaluated on the concrete
store `availStore`, whose only status is not flagged default. -/
theorem create_booking_no_default_throws_witness :
    createEventBooking availStore plainInsert "bk-new" =
      (availStore, .error "No default workflow status found. Please run the workflow status seed script.") ∧
    createEventBookingFromForm availStore plainForm 60 "bk-new2" =
      (availStore, .error "No default workflow status found. Please run the workflow status seed script.") :=
  create_booking_no_default_throws availStore plainInsert "bk-new" plainForm 60 "bk-new2"
    (by decide) (by decide)

/-- C6 (counterexample): "exactly one default after any sequence of
operations" fails — updating the sole default status with
`isDefault := false` leaves zero defaults: the clearing pass only runs
when a new default is being set, and nothing reinstates a default. -/
theorem exactly_one_default_fails :
    countDefaults [wsPending] = 1 ∧
    countDefaults (applyWorkflowStatusOp [wsPending]
      (WorkflowStatusOp.update "ws-pending" defaultClearPatch)) = 0 := by
  decide

/-- C6 (amended): the workflow-status writers preserve "at most one
default".  Starting from a catalog with at most one default row and
distinct ids, any sequence of `createWorkflowStatus` /
`updateWorkflowStatus` operations (inserting fresh ids, as
`randomUUID()` does) leaves at most one default row; moreover any
operation that sets `isDefault = true` clears the flag on every other
row in the same operation: after such a create only the inserted row
can carry the flag, and after such an update only the targeted id
can. -/
theorem default_flag_at_most_one
    (l : List WorkflowStatus) (ops : List WorkflowStatusOp)
    (h1 : countDefaults l ≤ 1) (h2 : (l.map (fun st => st.id)).Nodup)
    (hf : opsFresh l ops = true) :
    countDefaults (ops.foldl applyWorkflowStatusOp l) ≤ 1 ∧
    (∀ (m : List WorkflowStatus) (d : InsertWorkflowStatus) (i : String),
      d.isDefault = true →
      ∀ st ∈ createWorkflowStatus m d i, st.isDefault = true →
        st.id = i ∧ st.slug = d.slug) ∧
    (∀ (m : List WorkflowStatus) (id : String) (u : UpdateWorkflowStatus),
      u.isDefault = some true →
      ∀ st ∈ (updateWorkflowStatus m id u).1, st.isDefault = true → st.id = id) := by
  refine ⟨foldl_defaults_le ops l h1 h2 hf, ?_, ?_⟩
  · intro m d i hd st hst hdef
    unfold createWorkflowStatus at hst
    rw [if_pos hd] at hst
    rcases List.mem_append.mp hst with hleft | hright
    · exact absurd hdef (by simp [clearDefaultFlags_isDefault st hleft])
    · rcases List.mem_singleton.mp hright with rfl
      exact ⟨rfl, rfl⟩
  · intro m id u hu st hst hdef
    rw [updateWorkflowStatus_fst, if_pos (by simp [hu])] at hst
    rw [List.mem_map] at hst
    obtain ⟨x, hx, rfl⟩ := hst
    by_cases hid : (x.id == id) = true
    · rw [if_pos hid] at hdef ⊢
      have : (applyWorkflowStatusPatch x u).id = x.id := rfl
      rw [this]
      exact beq_iff_eq.mp hid
    · rw [if_neg hid] at hdef
      exact absurd hdef (by simp [clearDefaultFlags_isDefault x hx])

/-- C6 (witness for the amended theorem): the at-most-one bound applied
to the seeded one-default catalog and a concrete operation sequence
that first clears the default and then installs a new one. -/
theorem default_flag_at_most_one_witness :
    countDefaults ([WorkflowStatusOp.update "ws-pending" defaultClearPatch,
      WorkflowStatusOp.create ⟨"approved", "Godkänd", 3, "green", true, false, true⟩
        "ws-new"].foldl applyWorkflowStatusOp [wsPending]) ≤ 1 :=
  (default_flag_at_most_one [wsPending]
    [WorkflowStatusOp.update "ws-pending" defaultClearPatch,
     WorkflowStatusOp.create ⟨"approved", "Godkänd", 3, "green", true, false, true⟩
       "ws-new"]
    (by decide) (by decide) (by decide)).1

/-- C4: pending bookings never block a slot, and the considered set is
exactly as claimed.  First part: removing a booking whose status id is
the designated pending status (the row `getWorkflowStatusBySlug`
returns for "pending") from anywhere in the store leaves the verdict of
`isTimeSlotAvailable` unchanged — such a booking is filtered out before
the scan cap, so its presence never causes a `false`.  Second and third
parts: when no "pending"-slugged status exists the WHERE clause keeps
every active-status booking starting no later than the candidate's end,
and when one exists it additionally requires the status id to differ
from the pending id. -/
theorem pending_never_blocks
    (s : Store) (b : EventBooking) (p : WorkflowStatus)
    (l1 l2 : List EventBooking) (startTime durationMinutes : Int)
    (hp : getWorkflowStatusBySlug s.workflowStatuses "pending" = some p)
    (hb : b.statusId = p.id)
    (hsplit : s.eventBookings = l1 ++ b :: l2) :
    (isTimeSlotAvailable s startTime durationMinutes =
      isTimeSlotAvailable { s with eventBookings := l1 ++ l2 } startTime durationMinutes) ∧
    (∀ (t : Store) (c d : Int),
      getWorkflowStatusBySlug t.workflowStatuses "pending" = none →
      relevantCandidateRows t c d =
        (joinStatus t.eventBookings t.workflowStatuses).filter
          (fun r => decide (r.1.startAt ≤ c + d) && r.2.isActive)) ∧
    (∀ (t : Store) (q : WorkflowStatus) (c d : Int),
      getWorkflowStatusBySlug t.workflowStatuses "pending" = some q →
      relevantCandidateRows t c d =
        (joinStatus t.eventBookings t.workflowStatuses).filter
          (fun r => decide (r.1.startAt ≤ c + d) && r.2.isActive &&
            !(r.1.statusId == q.id))) := by
  refine ⟨?_, ?_, ?_⟩
  · have hrel : relevantCandidateRows s startTime durationMinutes =
        relevantCandidateRows { s with eventBookings := l1 ++ l2 } startTime durationMinutes := by
      unfold relevantCandidateRows
      simp only [hp]
      rw [hsplit, joinStatus_append, joinStatus_cons, List.filter_append,
        List.filter_append, joinStatus_append, List.filter_append]
      have hmid : ((s.workflowStatuses.filter (fun st => st.id == b.statusId)).map
          (fun st => (b, st))).filter
            (fun r => decide (r.1.startAt ≤ startTime + durationMinutes) &&
              r.2.isActive && !(r.1.statusId == p.id)) = [] := by
        rw [List.filter_eq_nil_iff]
        intro r hr
        rw [List.mem_map] at hr
        obtain ⟨x, _, rfl⟩ := hr
        simp [hb]
      rw [hmid]
      simp
    unfold isTimeSlotAvailable availabilityCandidates
    rw [hrel]
  · intro t c d h
    unfold relevantCandidateRows
    simp only [h]
  · intro t q c d h
    unfold relevantCandidateRows
    simp only [h]

/-- Store with the pending status in the catalog and a pending booking
overlapping the whole day, next to the approved Lucia booking. -/
def pendingBooking : EventBooking :=
  ⟨"bk-pend", "luciatag", "David", "d@example.com", "0700000002",
   0, 1440, none, "ws-pending", none⟩

/-- Store for the C4 witness: an overlapping pending booking sits
between the catalog and the approved booking. -/
def pendingStore : Store :=
  ⟨[wsPending, wsApproved], [etLucia], [pendingBooking, bkLucia], []⟩

/-- C4 (witness): removing the overlapping pending booking from
`pendingStore` does not change the availability verdict. -/
theorem pending_never_blocks_witness :
    isTimeSlotAvailable pendingStore 720 60 =
      isTimeSlotAvailable { pendingStore with eventBookings := [bkLucia] } 720 60 :=
  (pending_never_blocks pendingStore pendingBooking wsPending [] [bkLucia] 720 60
    (by decide) (by decide) (by decide)).1

/-- C8: the public calendar projection covers exactly the bookings
whose status id is the designated "approved" status (the row
`getWorkflowStatusBySlug` returns); when no "approved"-slugged status
exists it evaluates to the empty list instead of failing. -/
theorem blocked_slots_exactly_approved (s : Store) :
    (getWorkflowStatusBySlug s.workflowStatuses "approved" = none →
      getBlockedSlotsForCalendar s = []) ∧
    (∀ a : WorkflowStatus,
      getWorkflowStatusBySlug s.workflowStatuses "approved" = some a →
      ∀ bid : String,
        (bid ∈ (getBlockedSlotsForCalendar s).map (fun r => r.id) ↔
          ∃ b ∈ s.eventBookings, b.id = bid ∧ b.statusId = a.id)) := by
  constructor
  · intro h
    unfold getBlockedSlotsForCalendar
    rw [h]
  · intro a ha bid
    unfold getBlockedSlotsForCalendar
    rw [ha]
    simp only [List.map_map, List.mem_map, Function.comp]
    constructor
    · rintro ⟨r, hr, rfl⟩
      rw [mem_sortByStart, List.mem_filter] at hr
      obtain ⟨hjoin, hsid⟩ := hr
      exact ⟨r.1, (mem_joinStatus.mp hjoin).1, rfl, beq_iff_eq.mp hsid⟩
    · rintro ⟨b, hb, rfl, hsid⟩
      have hmem : a ∈ s.workflowStatuses := (getWorkflowStatusBySlug_mem ha).1
      refine ⟨(b, a), ?_, rfl⟩
      rw [mem_sortByStart, List.mem_filter]
      refine ⟨mem_joinStatus.mpr ⟨hb, hmem, hsid.symm⟩, by simp [hsid]⟩

/-- C8 (witness): on the concrete `calStore` the projection carries
exactly the id of the approved December booking, and on a store whose
catalog has no "approved" status it is empty. -/
theorem blocked_slots_exactly_approved_witness :
    ("bk-dec" ∈ (getBlockedSlotsForCalendar calStore).map (fun r => r.id) ↔
      ∃ b ∈ calStore.eventBookings, b.id = "bk-dec" ∧ b.statusId = wsApproved.id) ∧
    getBlockedSlotsForCalendar ⟨[wsPending], [etLucia], [bkDecember], []⟩ = [] :=
  ⟨(blocked_slots_exactly_approved calStore).2 wsApproved (by decide) "bk-dec",
   (blocked_slots_exactly_approved ⟨[wsPending], [etLucia], [bkDecember], []⟩).1
     (by decide)⟩

/-- C2 (amended): every published blocked slot renders the literal
booking window — `date` and `startTime` from the booking's start
instant and `endTime` from `startAt + durationMinutes`, formatted in
Europe/Stockholm — with no buffer padding applied. -/
theorem blocked_slots_literal_times
    (s : Store) (slot : BlockedSlot) (h : slot ∈ getBlockedSlotsForCalendar s) :
    ∃ b ∈ s.eventBookings,
      slot.id = b.id ∧
      slot.date = formatStockholmDate b.startAt ∧
      slot.startTime = formatStockholmTime b.startAt ∧
      slot.endTime = formatStockholmTime (b.startAt + b.durationMinutes) ∧
      slot.eventType = b.eventType := by
  unfold getBlockedSlotsForCalendar at h
  rcases hm : getWorkflowStatusBySlug s.workflowStatuses "approved" with _ | a
  · rw [hm] at h
    simp at h
  · rw [hm] at h
    rw [List.mem_map] at h
    obtain ⟨r, hr, rfl⟩ := h
    rw [mem_sortByStart, List.mem_filter] at hr
    exact ⟨r.1, (mem_joinStatus.mp hr.1).1, rfl, rfl, rfl, rfl, rfl⟩

/-- C2 (witness for the amended theorem): the December slot of
`calStore` instantiates the literal-window description. -/
theorem blocked_slots_literal_times_witness :
    ∃ b ∈ calStore.eventBookings,
      ({ id := "bk-dec", date := formatStockholmDate decemberStart,
         startTime := formatStockholmTime decemberStart,
         endTime := formatStockholmTime (decemberStart + 120),
         eventType := "luciatag", statusSlug := "approved" } : BlockedSlot).id = b.id ∧
      ({ id := "bk-dec", date := formatStockholmDate decemberStart,
         startTime := formatStockholmTime decemberStart,
         endTime := formatStockholmTime (decemberStart + 120),
         eventType := "luciatag", statusSlug := "approved" } : BlockedSlot).date =
        formatStockholmDate b.startAt ∧
      ({ id := "bk-dec", date := formatStockholmDate decemberStart,
         startTime := formatStockholmTime decemberStart,
         endTime := formatStockholmTime (decemberStart + 120),
         eventType := "luciatag", statusSlug := "approved" } : BlockedSlot).startTime =
        formatStockholmTime b.startAt ∧
      ({ id := "bk-dec", date := formatStockholmDate decemberStart,
         startTime := formatStockholmTime decemberStart,
         endTime := formatStockholmTime (decemberStart + 120),
         eventType := "luciatag", statusSlug := "approved" } : BlockedSlot).endTime =
        formatStockholmTime (b.startAt + b.durationMinutes) ∧
      ({ id := "bk-dec", date := formatStockholmDate decemberStart,
         startTime := formatStockholmTime decemberStart,
         endTime := formatStockholmTime (decemberStart + 120),
         eventType := "luciatag", statusSlug := "approved" } : BlockedSlot).eventType =
        b.eventType :=
  blocked_slots_literal_times calStore _ (by decide)

/-- C9: the public calendar projection never depends on contact data,
notes or assignees.  Two stores with the same status catalog whose
bookings agree after forgetting contact name/email/phone, notes and
assignee produce identical projections — in particular no output field
carries any of those values. -/
theorem blocked_slots_no_private_data (s1 s2 : Store)
    (hst : s1.workflowStatuses = s2.workflowStatuses)
    (hbk : s1.eventBookings.map scrubBooking = s2.eventBookings.map scrubBooking) :
    getBlockedSlotsForCalendar s1 = getBlockedSlotsForCalendar s2 := by
  have key : ∀ t : Store, getBlockedSlotsForCalendar t =
      getBlockedSlotsForCalendar
        ⟨t.workflowStatuses, [], t.eventBookings.map scrubBooking, []⟩ := by
    intro t
    unfold getBlockedSlotsForCalendar
    rcases hm : getWorkflowStatusBySlug t.workflowStatuses "approved" with _ | a
    · simp only [hm]
    · simp only [hm]
      rw [joinStatus_scrub, filter_statusId_map_scrub, sortByStart_scrub, List.map_map]
      exact List.map_congr_left (fun r _ => rfl)
  rw [key s1, key s2, hst, hbk]

/-- The December booking with every private field replaced: different
contact data, notes and assignee, same public data. -/
def bkDecemberOther : EventBooking :=
  ⟨"bk-dec", "luciatag", "Eva Eriksson", "eva@example.org", "0769999999",
   decemberStart, 120, some "hemlig anteckning", "ws-approved", some "admin-1"⟩

/-- Store identical to `calStore` except for private booking fields. -/
def calStoreOther : Store := ⟨[wsApproved], [etLucia], [bkDecemberOther], []⟩

/-- C9 (witness): changing contact data, notes and assignee of the
December booking leaves the published projection unchanged. -/
theorem blocked_slots_no_private_data_witness :
    getBlockedSlotsForCalendar calStore = getBlockedSlotsForCalendar calStoreOther :=
  blocked_slots_no_private_data calStore calStoreOther (by decide) (by decide)

theorem getEventBooking_split
    (sts : List WorkflowStatus) (ets : List EventType)
    (pre pst : List EventBooking) (logs : List ActivityLog)
    (b : EventBooking) (oldSt : WorkflowStatus)
    (hpre : ∀ x ∈ pre, x.id ≠ b.id)
    (hold : (sts.filter (fun st => st.id == b.statusId)).head? = some oldSt) :
    getEventBooking ⟨sts, ets, pre ++ b :: pst, logs⟩ b.id = some (b, oldSt) := by
  unfold getEventBooking
  show ((joinStatus (pre ++ b :: pst) sts).filter (fun r => r.1.id == b.id)).head? = _
  rw [joinStatus_append, joinStatus_cons, List.filter_append, List.filter_append,
    filter_id_joinStatus_eq_nil hpre]
  have hmid : ((sts.filter (fun st => st.id == b.statusId)).map
      (fun st => (b, st))).filter (fun r => r.1.id == b.id) =
      (sts.filter (fun st => st.id == b.statusId)).map (fun st => (b, st)) := by
    rw [List.filter_eq_self]
    intro r hr
    rw [List.mem_map] at hr
    obtain ⟨st, _, rfl⟩ := hr
    simp
  rw [hmid, List.nil_append]
  cases hX : sts.filter (fun st => st.id == b.statusId) with
  | nil => rw [hX] at hold; simp at hold
  | cons y ys =>
      rw [hX] at hold
      simp only [List.head?_cons, Option.some.injEq] at hold
      subst hold
      rfl

theorem map_patch_split
    (pre pst : List EventBooking) (b : EventBooking) (u : UpdateEventBooking)
    (hpre : ∀ x ∈ pre, x.id ≠ b.id) (hpst : ∀ x ∈ pst, x.id ≠ b.id) :
    (pre ++ b :: pst).map
        (fun x => if x.id == b.id then applyBookingPatch x u else x) =
      pre ++ applyBookingPatch b u :: pst := by
  rw [List.map_append, List.map_cons]
  have hpre' : pre.map (fun x => if x.id == b.id then applyBookingPatch x u else x) =
      pre := by
    have := List.map_congr_left
      (l := pre) (f := fun x => if x.id == b.id then applyBookingPatch x u else x)
      (g := id) (fun x hx => by simp [beq_eq_false_iff_ne.mpr (hpre x hx)])
    rw [this, List.map_id]
  have hpst' : pst.map (fun x => if x.id == b.id then applyBookingPatch x u else x) =
      pst := by
    have := List.map_congr_left
      (l := pst) (f := fun x => if x.id == b.id then applyBookingPatch x u else x)
      (g := id) (fun x hx => by simp [beq_eq_false_iff_ne.mpr (hpst x hx)])
    rw [this, List.map_id]
  rw [hpre', hpst']
  simp

theorem filter_patched_head
    (pre pst : List EventBooking) (b : EventBooking) (u : UpdateEventBooking)
    (hpre : ∀ x ∈ pre, x.id ≠ b.id) :
    ((pre ++ applyBookingPatch b u :: pst).filter (fun x => x.id == b.id)).head? =
      some (applyBookingPatch b u) := by
  rw [List.filter_append, filter_id_eq_nil hpre, List.nil_append, List.filter_cons]
  have : ((applyBookingPatch b u).id == b.id) = true := by
    simp [applyBookingPatch]
  rw [if_pos this]
  rfl

/-- C7: full characterization of the activity trail of one
`updateEventBooking` call on a store whose booking ids are unambiguous
and whose old and new status ids resolve in the catalog.  The booking
row is patched in place and the activity-log table becomes the old
table with — in this order — one `status_changed` entry (recording the
old and new status display names) exactly when a differing truthy
status id was submitted, one `assigned` entry exactly when a differing
assignee was submitted, and one `notes_added` entry exactly when
differing notes were submitted: three entries when all three fields
change, no entry for an unchanged field, and no prior entry modified or
removed. -/
theorem update_booking_logs
    (sts : List WorkflowStatus) (ets : List EventType)
    (pre pst : List EventBooking) (logs : List ActivityLog)
    (b : EventBooking) (u : UpdateEventBooking) (userId userName : Option String)
    (oldSt newSt : WorkflowStatus)
    (hpre : ∀ x ∈ pre, x.id ≠ b.id) (hpst : ∀ x ∈ pst, x.id ≠ b.id)
    (hold : (sts.filter (fun st => st.id == b.statusId)).head? = some oldSt)
    (hnew : (sts.filter
      (fun st => st.id == (applyBookingPatch b u).statusId)).head? = some newSt) :
    updateEventBooking ⟨sts, ets, pre ++ b :: pst, logs⟩ b.id u userId userName =
      (⟨sts, ets, pre ++ applyBookingPatch b u :: pst,
        logs ++
        (if (match u.statusId with
             | some ns => !(ns == "") && !(ns == b.statusId)
             | none => false) then
          [{ bookingId := b.id
             action := .status_changed
             details := statusChangeDetails oldSt.name newSt.name
             userId := truthyString userId
             userName := some (match truthyString userName with
               | some v => v
               | none => "System") }]
         else []) ++
        (if (match u.assignedTo with
             | some na => !(some na == b.assignedTo)
             | none => false) then
          [{ bookingId := b.id
             action := .assigned
             details := assigneeChangeDetails (assigneeOrIngen b.assignedTo)
               (assigneeOrIngen u.assignedTo)
             userId := truthyString userId
             userName := some (match truthyString userName with
               | some v => v
               | none => "System") }]
         else []) ++
        (if (match u.additionalNotes with
             | some nn => !(nn == b.additionalNotes)
             | none => false) then
          [{ bookingId := b.id
             action := .notes_added
             details := match u.additionalNotes with
               | some (some v) =>
                   if v == "" then "Anteckningar togs bort"
                   else "Anteckningar uppdaterades"
               | _ => "Anteckningar togs bort"
             userId := truthyString userId
             userName := some (match truthyString userName with
               | some v => v
               | none => "System") }]
         else [])⟩,
       some (applyBookingPatch b u, newSt)) := by
  have hget := getEventBooking_split sts ets pre pst logs b oldSt hpre hold
  have hmap := map_patch_split pre pst b u hpre hpst
  have hfilter := filter_patched_head pre pst b u hpre
  have hget2 : getEventBooking ⟨sts, ets, pre ++ applyBookingPatch b u :: pst, logs⟩
      b.id = some (applyBookingPatch b u, newSt) :=
    getEventBooking_split sts ets pre pst logs (applyBookingPatch b u) newSt hpre hnew
  simp only [updateEventBooking, hget, hmap, hfilter, hget2]

/-- The admin patch used in the C7 witness: new status, new assignee,
new notes, all differing from the stored booking. -/
def reviewPatch : UpdateEventBooking :=
  ⟨some "ws-reviewing", some "Lisa Larsson", some (some "Ring skolan")⟩

/-- C7 (witness): one call changing status, assignee and notes of the
concrete booking appends exactly three log entries — `status_changed`
with both display names, `assigned`, `notes_added`, in that order —
and keeps the (empty) prior log prefix intact. -/
theorem update_booking_logs_witness :
    updateEventBooking ⟨[wsApproved, wsReviewing], [etLucia], [bkLucia], []⟩
        "bk-1" reviewPatch (some "u-1") (some "Maria") =
      (⟨[wsApproved, wsReviewing], [etLucia],
        [{ bkLucia with statusId := "ws-reviewing",
                        assignedTo := some "Lisa Larsson",
                        additionalNotes := some "Ring skolan" }],
        [⟨"bk-1", .status_changed,
          "Status ändrad från \"Godkänd\" till \"Granskas\"", some "u-1", some "Maria"⟩,
         ⟨"bk-1", .assigned,
          "Ansvarig ändrad från \"Ingen\" till \"Lisa Larsson\"", some "u-1", some "Maria"⟩,
         ⟨"bk-1", .notes_added, "Anteckningar uppdaterades", some "u-1", some "Maria"⟩]⟩,
       some ({ bkLucia with statusId := "ws-reviewing",
                            assignedTo := some "Lisa Larsson",
                            additionalNotes := some "Ring skolan" }, wsReviewing)) := by
  have h := update_booking_logs [wsApproved, wsReviewing] [etLucia] [] [] []
    bkLucia reviewPatch (some "u-1") (some "Maria") wsApproved wsReviewing
    (by simp) (by simp) (by decide) (by decide)
  exact h.trans (by decide)
